import Mathlib

/-!
Verification of the weather-retro dashboard pipeline (docs/main.js, the
embedded Python code executed by the worker).

The pipeline stages modelled here, with the source lines they embed:
  * `preprocess_data` (main.js lines 128-140): drop the "station" column,
    coerce every cell to numeric with malformed cells becoming the missing
    marker, narrow to float32.
  * `select_data` (lines 143-151): keep rows whose index month and day match
    the target date.
  * the statistics part of `plot_data` (lines 154-276): year bucketing via
    `pd.cut` (lines 167-171), the target value `select_df.iloc[-1][weather_var]`
    (line 185), min/idxmin (lines 209-210), max/idxmax (lines 219-220), mean
    (line 229), median (line 238), and
    `percentileofscore(weather_df, weather_date, kind="strict")` (line 255).
  * the `pn.cache` memoisation decorating `load_data` and `select_data`
    (lines 119, 143); the decorator itself is library code, modelled from the
    spec's `getOrCompute` contract.

Numeric cells are modelled as exact rationals; pandas' NaN missing marker is
`Option.none`.  The `.astype("float32")` narrowing acts on the value domain,
which the rational model represents exactly, so the narrowing map is the
identity here (precision loss is not modelled).
-/

/-- A calendar date at day granularity, the index type of the daily-record
table (`index_col="day"`). -/
structure Date where
  year : Int
  month : Nat
  day : Nat
deriving DecidableEq, Repr

/-- A raw table cell as seen by `pd.to_numeric(errors="coerce")`: either a
value that parses as a number, or a malformed string (e.g. the "M" missing
code) that fails numeric parsing. -/
inductive RawCell where
  | numeric (v : ℚ)
  | malformed (s : String)
deriving DecidableEq, Repr

/-- The raw daily-record table returned by `load_data`: named columns and one
row per calendar day. -/
structure RawTable where
  columns : List String
  rows : List (Date × List RawCell)
deriving DecidableEq, Repr

/-- A cleaned table: every cell is a numeric value or the missing marker
(pandas NaN), modelled as `Option ℚ`. -/
structure CleanedTable where
  columns : List String
  rows : List (Date × List (Option ℚ))
deriving DecidableEq, Repr

/-- The error raised by `df.drop(columns=["station"])` when no column named
"station" exists (pandas `KeyError`). -/
inductive PandasError where
  | keyError
deriving DecidableEq, Repr

/-- `pd.to_numeric(errors="coerce")` on one cell: a numeric-parsable value is
kept, anything else becomes the missing marker (NaN). -/
def to_numeric_coerce : RawCell → Option ℚ
  | .numeric v => some v
  | .malformed _ => none

/-- `.astype("float32")` narrows each numeric value to 32-bit precision.  The
value domain is modelled as exact rationals, on which the narrowing map is the
identity; the missing marker stays missing. -/
def astype_float32 (x : Option ℚ) : Option ℚ := x

/-- One row of `df.drop(columns=["station"]).apply(pd.to_numeric, errors="coerce")
.astype("float32")`: cells are paired with their column names, every cell in a
column named "station" is removed, and the remaining cells are coerced. -/
def cleanRow (columns : List String) (cells : List RawCell) : List (Option ℚ) :=
  ((columns.zip cells).filter (fun p => !(p.1 == "station"))).map
    (fun p => astype_float32 (to_numeric_coerce p.2))

/-- `preprocess_data` (main.js lines 128-140): drop the station column (pandas
raises `KeyError` when it is absent), coerce all remaining cells to numeric
with malformed cells becoming NaN, and narrow to float32. -/
def preprocess_data (t : RawTable) : Except PandasError CleanedTable :=
  if "station" ∈ t.columns then
    .ok { columns := t.columns.filter (fun c => !(c == "station")),
          rows := t.rows.map (fun r => (r.1, cleanRow t.columns r.2)) }
  else
    .error .keyError

/-- `select_data` (main.js lines 143-151): keep exactly the rows whose index
month and day equal the target date's month and day, regardless of year. -/
def select_data (date : Date) (t : CleanedTable) : CleanedTable :=
  { columns := t.columns,
    rows := t.rows.filter (fun r => r.1.month == date.month && r.1.day == date.day) }

/-- The bin edges of `pd.cut(select_df.index.year, bins=range(1930, 2060, 20))`
(main.js line 169): `range(1930, 2060, 20)` enumerates to this fixed constant
table of edges, independent of the data. -/
def scoreBins : List Int := [1930, 1950, 1970, 1990, 2010, 2030, 2050]

/-- `pd.cut` with explicit bin edges and the default `right=True`: a value `y`
is placed in the half-open interval `(edges[i], edges[i+1]]` containing it, and
values outside every interval get the missing marker (NaN). -/
def cutBucket : List Int → Int → Option (Int × Int)
  | a :: b :: rest, y => if a < y ∧ y ≤ b then some (a, b) else cutBucket (b :: rest) y
  | _, _ => none

/-- The `assign` step of `plot_data` (main.js lines 167-170): each row of the
day-of-year slice (projected to the selected weather variable) is tagged with
its `pd.cut` year bucket, the "score" column. -/
def assignScore (slice : List (Date × Option ℚ)) :
    List (Date × Option ℚ × Option (Int × Int)) :=
  slice.map (fun r => (r.1, r.2, cutBucket scoreBins r.1.year))

/-- `.dropna(subset=[weather_var])` (main.js line 171) on the slice projected
to the selected variable: rows whose value is the missing marker are removed,
the rest keep their date and value. -/
def dropnaVar (slice : List (Date × Option ℚ)) : List (Date × ℚ) :=
  slice.filterMap (fun r => r.2.map (fun v => (r.1, v)))

/-- `Series.idxmin` (main.js line 210): the index label of the first occurrence
of the minimum, found by a left-to-right scan that replaces the running best
only on a strictly smaller value. -/
def idxminAux : Date × ℚ → List (Date × ℚ) → Date × ℚ
  | best, [] => best
  | best, r :: rest => idxminAux (if r.2 < best.2 then r else best) rest

/-- `Series.idxmax` (main.js line 220): the index label of the first occurrence
of the maximum, found by a left-to-right scan that replaces the running best
only on a strictly larger value. -/
def idxmaxAux : Date × ℚ → List (Date × ℚ) → Date × ℚ
  | best, [] => best
  | best, r :: rest => idxmaxAux (if best.2 < r.2 then r else best) rest

/-- `Series.median` (main.js line 238): middle element of the sorted values for
odd length, average of the two middle elements for even length. -/
def medianOf (vals : List ℚ) : ℚ :=
  let s := vals.insertionSort (fun a b => a ≤ b)
  let n := s.length
  if n % 2 = 1 then s.getD (n / 2) 0
  else (s.getD (n / 2 - 1) 0 + s.getD (n / 2) 0) / 2

/-- `scipy.stats.percentileofscore(a, score, kind="strict")` (main.js line
255): the number of values strictly below the score, divided by the series
length, times 100. -/
def percentileofscore_strict (a : List ℚ) (score : ℚ) : ℚ :=
  let n : ℚ := a.length
  let left : ℚ := a.countP (fun v => decide (v < score))
  left / n * 100

/-- The summary statistics `plot_data` derives from the day-of-year slice and
feeds to the number widgets (main.js lines 185-263). -/
structure SummaryStats where
  target : ℚ
  percentile : ℚ
  mean : ℚ
  median : ℚ
  min : ℚ
  min_year : Int
  max : ℚ
  max_year : Int
  nYears : Nat
deriving DecidableEq, Repr

/-- How the statistics part of `plot_data` can fail.  `indexError` models the
pandas `IndexError` ("single positional indexer is out-of-bounds") raised by
`select_df.iloc[-1]` on an empty frame (main.js line 185).  `emptySliceError`
is the spec's `EmptySliceError` vocabulary; no code path produces it. -/
inductive PlotError where
  | indexError
  | emptySliceError
deriving DecidableEq, Repr

/-- The statistics computations of `plot_data` (main.js lines 154-263) on the
day-of-year slice projected to the selected weather variable, in source order:
drop rows whose value is missing (line 171), take the last remaining row's
value as the highlighted target (`select_df.iloc[-1][weather_var]`, line 185
— pandas raises `IndexError` there when no row remains), then compute mean,
min with `idxmin`, max with `idxmax`, median, the year count used in the
title, and the strict percentile of the target (line 255). -/
def plot_data_stats (date : Date) (slice : List (Date × Option ℚ)) :
    Except PlotError SummaryStats :=
  match dropnaVar slice with
  | [] => .error .indexError
  | r0 :: rest =>
    let rows := r0 :: rest
    let vals := rows.map (fun r => r.2)
    let weather_date := (rows.getLast (List.cons_ne_nil r0 rest)).2
    let mn := idxminAux r0 rest
    let mx := idxmaxAux r0 rest
    .ok { target := weather_date
          percentile := percentileofscore_strict vals weather_date
          mean := vals.sum / (vals.length : ℚ)
          median := medianOf vals
          min := rest.foldl (fun acc r => if r.2 < acc then r.2 else acc) r0.2
          min_year := mn.1.year
          max := rest.foldl (fun acc r => if acc < r.2 then r.2 else acc) r0.2
          max_year := mx.1.year
          nYears := vals.length }

/-- A cache as the `pn.cache` decorator maintains it: an association of keys
to previously computed values. -/
structure CacheState (κ ν : Type) where
  entries : List (κ × ν)
deriving DecidableEq, Repr

/-- Look a key up in the cache. -/
def cacheLookup {κ ν : Type} [DecidableEq κ] (c : CacheState κ ν) (k : κ) :
    Option ν :=
  (c.entries.find? (fun e => decide (e.1 = k))).map (fun e => e.2)

/-- Modelled from the spec: the `pn.cache` decorator applied to `load_data` and
`select_data` (main.js lines 119, 143) is library code not in src/; the spec's
contract is `getOrCompute(stageId, key, computeFn) -> value`, returning the
cached value without re-invoking `computeFn` on a key hit and computing and
storing it on a miss.  The returned Boolean records whether `computeFn` was
invoked (the spec's call counter on `f`). -/
def getOrCompute {κ ν : Type} [DecidableEq κ] (c : CacheState κ ν) (k : κ)
    (f : κ → ν) : ν × CacheState κ ν × Bool :=
  match cacheLookup c k with
  | some v => (v, c, false)
  | none => (f k, ⟨(k, f k) :: c.entries⟩, true)

/-- Example raw table holding a station column and two malformed cells: the
station code itself and an "M" missing-data code in the numeric column. -/
def rawWithStation : RawTable :=
  { columns := ["station", "max_temp_f"],
    rows := [(⟨2023, 7, 4⟩, [RawCell.malformed "DEN", RawCell.malformed "M"])] }

/-- Example raw table lacking the station column. -/
def rawWithoutStation : RawTable :=
  { columns := ["max_temp_f"], rows := [] }

/-- Example slice for the min-tie rule: years 1990 and 1995 share the minimum
value 32, year 2000 holds 50. -/
def minTieSlice : List (Date × Option ℚ) :=
  [(⟨1990, 1, 15⟩, some 32), (⟨1995, 1, 15⟩, some 32), (⟨2000, 1, 15⟩, some 50)]

/-- Example variable series from the spec's percentile example. -/
def exampleSeries : List ℚ := [50, 60, 70, 80, 90]

/-- Example slice whose target-year (2023) row has a missing value, so the
last row remaining after `dropna` belongs to 2022. -/
def missingTargetSlice : List (Date × Option ℚ) :=
  [(⟨2022, 7, 4⟩, some 10), (⟨2023, 7, 4⟩, none)]

/-- Example slice with two non-missing rows, used to instantiate the
last-row-target theorem. -/
def lastRowSlice : List (Date × Option ℚ) :=
  [(⟨2022, 7, 4⟩, some 10), (⟨2023, 7, 4⟩, some 20)]

/-- Example one-row slice for the year-bucket theorem. -/
def scoredSlice : List (Date × Option ℚ) := [(⟨2023, 7, 4⟩, some 10)]

/-- The row of `scoredSlice` after the score assignment: year 2023 falls in
the (2010, 2030] bucket. -/
def scoredRow : Date × Option ℚ × Option (Int × Int) :=
  (⟨2023, 7, 4⟩, some 10, some (2010, 2030))


/-! Helper lemmas about the embedded operations. -/

theorem cutBucket_none_iff (y : Int) :
    cutBucket scoreBins y = none ↔ (y ≤ 1930 ∨ 2050 < y) := by
  simp only [scoreBins, cutBucket]
  split_ifs <;> simp <;> omega

theorem cutBucket_some_mem (y : Int) (i : Int × Int)
    (h : cutBucket scoreBins y = some i) :
    i ∈ scoreBins.zip scoreBins.tail ∧ i.1 < y ∧ y ≤ i.2 := by
  simp only [scoreBins, cutBucket] at h
  split_ifs at h <;>
    first
      | exact Option.noConfusion h
      | (injection h with h'
         subst h'
         exact ⟨by decide, by omega⟩)

theorem percentileofscore_strict_eq (vals : List ℚ) (target : ℚ)
    (h : vals ≠ []) :
    percentileofscore_strict vals target =
      100 * ((vals.filter (fun v => decide (v < target))).length : ℚ) /
        (vals.length : ℚ) := by
  have hn : (vals.length : ℚ) ≠ 0 := by
    simp [List.length_eq_zero]
    exact h
  simp only [percentileofscore_strict, List.countP_eq_length_filter]
  field_simp
  ring

theorem idxminAux_mem (l : List (Date × ℚ)) (best : Date × ℚ) :
    idxminAux best l ∈ best :: l := by
  induction l generalizing best with
  | nil => simp [idxminAux]
  | cons r rest ih =>
    rw [idxminAux]
    rcases List.mem_cons.mp (ih (if r.2 < best.2 then r else best)) with h | h
    · rw [h]
      split_ifs <;> simp
    · simp [h]

theorem idxminAux_le (l : List (Date × ℚ)) (best : Date × ℚ) :
    (idxminAux best l).2 ≤ best.2 ∧ ∀ r ∈ l, (idxminAux best l).2 ≤ r.2 := by
  induction l generalizing best with
  | nil => simp [idxminAux]
  | cons r rest ih =>
    rw [idxminAux]
    by_cases hc : r.2 < best.2
    · rw [if_pos hc]
      obtain ⟨h1, h2⟩ := ih r
      refine ⟨le_of_lt (lt_of_le_of_lt h1 hc), ?_⟩
      intro z hz
      rcases List.mem_cons.mp hz with hEq | hz2
      · rw [hEq]
        exact h1
      · exact h2 z hz2
    · rw [if_neg hc]
      obtain ⟨h1, h2⟩ := ih best
      refine ⟨h1, ?_⟩
      intro z hz
      rcases List.mem_cons.mp hz with hEq | hz2
      · rw [hEq]
        exact le_trans h1 (not_lt.mp hc)
      · exact h2 z hz2

theorem idxminAux_cases (l : List (Date × ℚ)) (best : Date × ℚ) :
    idxminAux best l = best ∨
      (idxminAux best l ∈ l ∧ (idxminAux best l).2 < best.2) := by
  induction l generalizing best with
  | nil => left; rfl
  | cons r rest ih =>
    rw [idxminAux]
    by_cases hc : r.2 < best.2
    · rw [if_pos hc]
      rcases ih r with h | ⟨hm, hlt⟩
      · right
        rw [h]
        exact ⟨List.mem_cons_self r rest, hc⟩
      · right
        exact ⟨List.mem_cons_of_mem r hm, lt_trans hlt hc⟩
    · rw [if_neg hc]
      rcases ih best with h | ⟨hm, hlt⟩
      · left
        exact h
      · right
        exact ⟨List.mem_cons_of_mem r hm, hlt⟩

theorem idxminAux_first (l : List (Date × ℚ)) :
    ∀ best : Date × ℚ, ((best :: l).Pairwise fun a b => a.1.year < b.1.year) →
      ∀ r ∈ best :: l, r.2 = (idxminAux best l).2 →
        (idxminAux best l).1.year ≤ r.1.year := by
  induction l with
  | nil =>
    intro best _ r hr _
    simp at hr
    rw [hr]
    simp [idxminAux]
  | cons x rest ih =>
    intro best hs r hr hval
    rw [idxminAux] at hval ⊢
    rw [List.pairwise_cons] at hs
    obtain ⟨hbest, hxrest⟩ := hs
    by_cases hc : x.2 < best.2
    · rw [if_pos hc] at hval ⊢
      rcases List.mem_cons.mp hr with hEq | hr2
      · subst hEq
        exfalso
        obtain ⟨h1, _⟩ := idxminAux_le rest x
        rw [← hval] at h1
        linarith
      · exact ih x hxrest r hr2 hval
    · rw [if_neg hc] at hval ⊢
      have hsb : ((best :: rest).Pairwise fun a b => a.1.year < b.1.year) := by
        rw [List.pairwise_cons]
        exact ⟨fun a ha => hbest a (List.mem_cons_of_mem x ha), hxrest.of_cons⟩
      rcases List.mem_cons.mp hr with hEq | hr2
      · subst hEq
        exact ih _ hsb _ (List.mem_cons_self _ rest) hval
      · rcases List.mem_cons.mp hr2 with hEq | hr3
        · subst hEq
          obtain ⟨h1, _⟩ := idxminAux_le rest best
          have heqb : idxminAux best rest = best := by
            rcases idxminAux_cases rest best with h | ⟨_, hlt⟩
            · exact h
            · rw [← hval] at hlt
              exfalso
              exact absurd hlt (not_lt.mpr (le_trans (not_lt.mp hc) (le_refl _)))
          rw [heqb]
          exact le_of_lt (hbest _ (List.mem_cons_self _ rest))
        · exact ih _ hsb r (List.mem_cons_of_mem _ hr3) hval

theorem idxminAux_val (l : List (Date × ℚ)) (best : Date × ℚ) :
    (idxminAux best l).2 =
      l.foldl (fun acc r => if r.2 < acc then r.2 else acc) best.2 := by
  induction l generalizing best with
  | nil => rfl
  | cons r rest ih =>
    rw [idxminAux, List.foldl_cons, ih]
    by_cases hc : r.2 < best.2
    · rw [if_pos hc, if_pos hc]
    · rw [if_neg hc, if_neg hc]

theorem idxmaxAux_mem (l : List (Date × ℚ)) (best : Date × ℚ) :
    idxmaxAux best l ∈ best :: l := by
  induction l generalizing best with
  | nil => simp [idxmaxAux]
  | cons r rest ih =>
    rw [idxmaxAux]
    rcases List.mem_cons.mp (ih (if best.2 < r.2 then r else best)) with h | h
    · rw [h]
      split_ifs <;> simp
    · simp [h]

theorem idxmaxAux_ge (l : List (Date × ℚ)) (best : Date × ℚ) :
    best.2 ≤ (idxmaxAux best l).2 ∧ ∀ r ∈ l, r.2 ≤ (idxmaxAux best l).2 := by
  induction l generalizing best with
  | nil => simp [idxmaxAux]
  | cons r rest ih =>
    rw [idxmaxAux]
    by_cases hc : best.2 < r.2
    · rw [if_pos hc]
      obtain ⟨h1, h2⟩ := ih r
      refine ⟨le_of_lt (lt_of_lt_of_le hc h1), ?_⟩
      intro z hz
      rcases List.mem_cons.mp hz with hEq | hz2
      · rw [hEq]
        exact h1
      · exact h2 z hz2
    · rw [if_neg hc]
      obtain ⟨h1, h2⟩ := ih best
      refine ⟨h1, ?_⟩
      intro z hz
      rcases List.mem_cons.mp hz with hEq | hz2
      · rw [hEq]
        exact le_trans (not_lt.mp hc) h1
      · exact h2 z hz2

theorem idxmaxAux_cases (l : List (Date × ℚ)) (best : Date × ℚ) :
    idxmaxAux best l = best ∨
      (idxmaxAux best l ∈ l ∧ best.2 < (idxmaxAux best l).2) := by
  induction l generalizing best with
  | nil => left; rfl
  | cons r rest ih =>
    rw [idxmaxAux]
    by_cases hc : best.2 < r.2
    · rw [if_pos hc]
      rcases ih r with h | ⟨hm, hlt⟩
      · right
        rw [h]
        exact ⟨List.mem_cons_self r rest, hc⟩
      · right
        exact ⟨List.mem_cons_of_mem r hm, lt_trans hc hlt⟩
    · rw [if_neg hc]
      rcases ih best with h | ⟨hm, hlt⟩
      · left
        exact h
      · right
        exact ⟨List.mem_cons_of_mem r hm, hlt⟩

theorem idxmaxAux_first (l : List (Date × ℚ)) :
    ∀ best : Date × ℚ, ((best :: l).Pairwise fun a b => a.1.year < b.1.year) →
      ∀ r ∈ best :: l, r.2 = (idxmaxAux best l).2 →
        (idxmaxAux best l).1.year ≤ r.1.year := by
  induction l with
  | nil =>
    intro best _ r hr _
    simp at hr
    rw [hr]
    simp [idxmaxAux]
  | cons x rest ih =>
    intro best hs r hr hval
    rw [idxmaxAux] at hval ⊢
    rw [List.pairwise_cons] at hs
    obtain ⟨hbest, hxrest⟩ := hs
    by_cases hc : best.2 < x.2
    · rw [if_pos hc] at hval ⊢
      rcases List.mem_cons.mp hr with hEq | hr2
      · subst hEq
        exfalso
        obtain ⟨h1, _⟩ := idxmaxAux_ge rest x
        rw [← hval] at h1
        linarith
      · exact ih x hxrest r hr2 hval
    · rw [if_neg hc] at hval ⊢
      have hsb : ((best :: rest).Pairwise fun a b => a.1.year < b.1.year) := by
        rw [List.pairwise_cons]
        exact ⟨fun a ha => hbest a (List.mem_cons_of_mem x ha), hxrest.of_cons⟩
      rcases List.mem_cons.mp hr with hEq | hr2
      · subst hEq
        exact ih _ hsb _ (List.mem_cons_self _ rest) hval
      · rcases List.mem_cons.mp hr2 with hEq | hr3
        · subst hEq
          obtain ⟨h1, _⟩ := idxmaxAux_ge rest best
          have heqb : idxmaxAux best rest = best := by
            rcases idxmaxAux_cases rest best with h | ⟨_, hlt⟩
            · exact h
            · rw [← hval] at hlt
              exfalso
              linarith [not_lt.mp hc]
          rw [heqb]
          exact le_of_lt (hbest _ (List.mem_cons_self _ rest))
        · exact ih _ hsb r (List.mem_cons_of_mem _ hr3) hval

theorem idxmaxAux_val (l : List (Date × ℚ)) (best : Date × ℚ) :
    (idxmaxAux best l).2 =
      l.foldl (fun acc r => if acc < r.2 then r.2 else acc) best.2 := by
  induction l generalizing best with
  | nil => rfl
  | cons r rest ih =>
    rw [idxmaxAux, List.foldl_cons, ih]
    by_cases hc : best.2 < r.2
    · rw [if_pos hc, if_pos hc]
    · rw [if_neg hc, if_neg hc]

theorem cacheLookup_insert_self {κ ν : Type} [DecidableEq κ]
    (es : List (κ × ν)) (k : κ) (v : ν) :
    cacheLookup ⟨(k, v) :: es⟩ k = some v := by
  simp [cacheLookup, List.find?]

theorem plot_data_stats_cons (date : Date) (slice : List (Date × Option ℚ))
    (r0 : Date × ℚ) (rest : List (Date × ℚ))
    (hd : dropnaVar slice = r0 :: rest) :
    plot_data_stats date slice = .ok
      { target := ((r0 :: rest).getLast (List.cons_ne_nil r0 rest)).2
        percentile := percentileofscore_strict ((r0 :: rest).map (fun r => r.2))
          ((r0 :: rest).getLast (List.cons_ne_nil r0 rest)).2
        mean := ((r0 :: rest).map (fun r => r.2)).sum /
          (((r0 :: rest).map (fun r => r.2)).length : ℚ)
        median := medianOf ((r0 :: rest).map (fun r => r.2))
        min := rest.foldl (fun acc r => if r.2 < acc then r.2 else acc) r0.2
        min_year := (idxminAux r0 rest).1.year
        max := rest.foldl (fun acc r => if acc < r.2 then r.2 else acc) r0.2
        max_year := (idxmaxAux r0 rest).1.year
        nYears := ((r0 :: rest).map (fun r => r.2)).length } := by
  simp only [plot_data_stats, hd]

/-! The claim theorems. -/

/-- C5: for every cleaned table and target date, `select_data` returns exactly
the rows whose (month, day) equal the target date's (month, day), regardless
of year; it is a total function with no error conditions, and an empty row
list is a valid output. -/
theorem c5_select_data_day_of_year_filter (date : Date) (t : CleanedTable)
    (r : Date × List (Option ℚ)) :
    r ∈ (select_data date t).rows ↔
      r ∈ t.rows ∧ r.1.month = date.month ∧ r.1.day = date.day := by
  simp [select_data, List.mem_filter, and_assoc]

/-- C10: for every raw table that lacks a column named "station",
`preprocess_data` raises pandas' `KeyError` (from `df.drop(columns=["station"])`)
instead of producing a cleaned table. -/
theorem c10_missing_station_column_raises (t : RawTable)
    (h : "station" ∉ t.columns) :
    preprocess_data t = .error .keyError := by
  simp [preprocess_data, h]

/-- C10 witness: the concrete station-less table makes `preprocess_data`
raise. -/
theorem c10_witness :
    preprocess_data rawWithoutStation = .error .keyError :=
  c10_missing_station_column_raises rawWithoutStation (by decide)

/-- C4: for every raw table holding a station column, `preprocess_data` never
raises: it succeeds, drops the station-identifier column, and maps every
remaining cell through the numeric coercion under which a malformed cell
becomes the missing marker and a numeric-parsable cell keeps its value (the
float32 narrowing acting on the value domain, which exact rationals represent
without loss). -/
theorem c4_clean_drops_station_and_coerces (t : RawTable)
    (h : "station" ∈ t.columns) :
    ∃ ct : CleanedTable, preprocess_data t = .ok ct
      ∧ "station" ∉ ct.columns
      ∧ ct.rows = t.rows.map (fun r => (r.1, cleanRow t.columns r.2))
      ∧ (∀ s, astype_float32 (to_numeric_coerce (RawCell.malformed s)) = none)
      ∧ (∀ v, astype_float32 (to_numeric_coerce (RawCell.numeric v)) = some v) := by
  simp only [preprocess_data, if_pos h]
  refine ⟨_, rfl, ?_, rfl, fun s => rfl, fun v => rfl⟩
  intro hmem
  have hp := (List.mem_filter.mp hmem).2
  simp at hp

/-- C4 witness: the concrete raw table with a station column and two malformed
cells is cleaned without an error. -/
theorem c4_witness :
    ∃ ct : CleanedTable, preprocess_data rawWithStation = .ok ct
      ∧ "station" ∉ ct.columns
      ∧ ct.rows = rawWithStation.rows.map
          (fun r => (r.1, cleanRow rawWithStation.columns r.2))
      ∧ (∀ s, astype_float32 (to_numeric_coerce (RawCell.malformed s)) = none)
      ∧ (∀ v, astype_float32 (to_numeric_coerce (RawCell.numeric v)) = some v) :=
  c4_clean_drops_station_and_coerces rawWithStation (by decide)

/-- C2 counterexample: on the empty day-of-year slice the statistics stage of
`plot_data` fails with the pandas out-of-bounds `IndexError` raised by
`select_df.iloc[-1]` — precisely the failure mode the claim rules out — and
not with an `EmptySliceError`. -/
theorem c2_counterexample :
    plot_data_stats ⟨2023, 2, 29⟩ [] = .error .indexError ∧
      PlotError.indexError ≠ PlotError.emptySliceError :=
  ⟨rfl, by decide⟩

/-- C2 amended: for every target date, the statistics stage applied to an
empty day-of-year slice fails with the out-of-bounds positional access of
`iloc[-1]` (pandas `IndexError`); no `EmptySliceError` exists in the code. -/
theorem c2_empty_slice_raises_index_error (date : Date) :
    plot_data_stats date [] = .error .indexError := rfl

/-- C6: calling `getOrCompute` a second time with the identical key returns
the previously computed value without invoking the compute function again
(the `false` flag) and leaves the cache unchanged. -/
theorem c6_cache_second_call_no_recompute {κ ν : Type} [DecidableEq κ]
    (c : CacheState κ ν) (k : κ) (f : κ → ν) :
    getOrCompute (getOrCompute c k f).2.1 k f =
      ((getOrCompute c k f).1, (getOrCompute c k f).2.1, false) := by
  cases hl : cacheLookup c k with
  | some v => simp [getOrCompute, hl]
  | none => simp [getOrCompute, hl, cacheLookup_insert_self]

/-- C3: for every non-empty series of non-missing values and every target
value, the strict percentile equals 100 times the count of series values
strictly below the target divided by the total count; the percentile the
statistics stage reports is exactly this function applied to the slice's
non-missing values and its target value; and on the series [50, 60, 70, 80,
90] with target 70 the percentile is 40. -/
theorem c3_percentile_strict_formula (vals : List ℚ) (target : ℚ)
    (h : vals ≠ []) :
    percentileofscore_strict vals target =
        100 * ((vals.filter (fun v => decide (v < target))).length : ℚ) /
          (vals.length : ℚ)
      ∧ (∀ (date : Date) (slice : List (Date × Option ℚ)) (stats : SummaryStats),
          plot_data_stats date slice = .ok stats →
            stats.percentile =
              percentileofscore_strict ((dropnaVar slice).map (fun r => r.2))
                stats.target)
      ∧ percentileofscore_strict exampleSeries 70 = 40 := by
  refine ⟨percentileofscore_strict_eq vals target h, ?_, ?_⟩
  · intro date slice stats hok
    cases hd : dropnaVar slice with
    | nil =>
      rw [plot_data_stats, hd] at hok
      exact Except.noConfusion hok
    | cons r0 rest =>
      rw [plot_data_stats_cons date slice r0 rest hd] at hok
      injection hok with hok
      rw [← hok]
  · norm_num [percentileofscore_strict, exampleSeries, List.countP, List.countP.go]

/-- C3 witness: the formula and the spec's worked example instantiated on the
series [50, 60, 70, 80, 90] with target 70. -/
theorem c3_witness :
    percentileofscore_strict exampleSeries 70 =
        100 * ((exampleSeries.filter (fun v => decide (v < 70))).length : ℚ) /
          (exampleSeries.length : ℚ)
      ∧ (∀ (date : Date) (slice : List (Date × Option ℚ)) (stats : SummaryStats),
          plot_data_stats date slice = .ok stats →
            stats.percentile =
              percentileofscore_strict ((dropnaVar slice).map (fun r => r.2))
                stats.target)
      ∧ percentileofscore_strict exampleSeries 70 = 40 :=
  c3_percentile_strict_formula exampleSeries 70 (by decide)

/-- C9: for every fixed non-empty series of non-missing values, increasing
the target value never decreases the strict percentile the statistics stage
computes. -/
theorem c9_percentile_monotone_in_target (vals : List ℚ) (t t' : ℚ)
    (h : vals ≠ []) (ht : t ≤ t') :
    percentileofscore_strict vals t ≤ percentileofscore_strict vals t' := by
  have hcount : vals.countP (fun v => decide (v < t)) ≤
      vals.countP (fun v => decide (v < t')) := by
    apply List.countP_mono_left
    intro a _ ha
    simp at ha ⊢
    linarith
  have hn : (0 : ℚ) ≤ (vals.length : ℚ) := by positivity
  simp only [percentileofscore_strict]
  gcongr

/-- C9 witness: monotonicity instantiated on the example series with targets
60 and 75. -/
theorem c9_witness :
    percentileofscore_strict exampleSeries 60 ≤
      percentileofscore_strict exampleSeries 75 :=
  c9_percentile_monotone_in_target exampleSeries 60 75 (by decide) (by norm_num)

/-- C1 counterexample: for the non-empty slice whose 2023 row has a missing
value and target date in 2023, `plot_data` highlights 10 — the value of the
last row remaining after `dropna`, which belongs to year 2022 — although no
row whose year equals the target's carries that value: the stage does not
identify the target value by year. -/
theorem c1_counterexample :
    ∃ stats, plot_data_stats ⟨2023, 7, 4⟩ missingTargetSlice = .ok stats
      ∧ stats.target = 10
      ∧ ∀ r ∈ missingTargetSlice, r.1.year = 2023 → r.2 ≠ some 10 := by
  refine ⟨_, plot_data_stats_cons _ _ (⟨2022, 7, 4⟩, 10) [] rfl, rfl, ?_⟩
  decide

/-- C1 amended: for every non-empty day-of-year slice (non-empty after
dropping rows whose selected value is missing), the statistics stage uses the
value of the LAST remaining row (`select_df.iloc[-1][weather_var]`) as the
target value for the highlight and the percentile; this is the target-year
row's value only when that row is last and non-missing. -/
theorem c1_target_is_last_nonmissing_row (date : Date)
    (slice : List (Date × Option ℚ)) (h : dropnaVar slice ≠ []) :
    ∃ stats p, plot_data_stats date slice = .ok stats
      ∧ (dropnaVar slice).getLast? = some p
      ∧ stats.target = p.2 := by
  cases hd : dropnaVar slice with
  | nil => exact absurd hd h
  | cons r0 rest =>
    refine ⟨_, (r0 :: rest).getLast (List.cons_ne_nil r0 rest),
      plot_data_stats_cons date slice r0 rest hd, ?_, rfl⟩
    exact List.getLast?_eq_getLast _ _

/-- C1 witness: the last-row rule instantiated on a concrete two-row slice. -/
theorem c1_witness :
    ∃ stats p, plot_data_stats ⟨2023, 7, 4⟩ lastRowSlice = .ok stats
      ∧ (dropnaVar lastRowSlice).getLast? = some p
      ∧ stats.target = p.2 :=
  c1_target_is_last_nonmissing_row ⟨2023, 7, 4⟩ lastRowSlice (by decide)

/-- C7: for every slice that is non-empty after dropping missing values and
whose rows are in chronological order (strictly increasing years, one row per
year), the reported minimum and maximum each occur in the reported year, they
bound every value of the series, and among years sharing the extreme value
the reported year is the earliest; on the series {1990: 32, 1995: 32,
2000: 50} the minimum 32 is reported with min_year = 1990. -/
theorem c7_extremes_paired_with_earliest_year (date : Date)
    (slice : List (Date × Option ℚ)) (h : dropnaVar slice ≠ [])
    (hs : (dropnaVar slice).Pairwise fun a b => a.1.year < b.1.year) :
    (∃ stats, plot_data_stats date slice = .ok stats
      ∧ (∃ r ∈ dropnaVar slice, r.1.year = stats.min_year ∧ r.2 = stats.min)
      ∧ (∀ r ∈ dropnaVar slice, stats.min ≤ r.2)
      ∧ (∀ r ∈ dropnaVar slice, r.2 = stats.min → stats.min_year ≤ r.1.year)
      ∧ (∃ r ∈ dropnaVar slice, r.1.year = stats.max_year ∧ r.2 = stats.max)
      ∧ (∀ r ∈ dropnaVar slice, r.2 ≤ stats.max)
      ∧ (∀ r ∈ dropnaVar slice, r.2 = stats.max → stats.max_year ≤ r.1.year))
    ∧ (∃ s2, plot_data_stats ⟨2000, 1, 15⟩ minTieSlice = .ok s2
        ∧ s2.min = 32 ∧ s2.min_year = 1990) := by
  constructor
  · cases hd : dropnaVar slice with
    | nil => exact absurd hd h
    | cons r0 rest =>
      rw [hd] at hs
      refine ⟨_, plot_data_stats_cons date slice r0 rest hd,
        ⟨idxminAux r0 rest, idxminAux_mem rest r0, rfl, idxminAux_val rest r0⟩,
        ?_, ?_,
        ⟨idxmaxAux r0 rest, idxmaxAux_mem rest r0, rfl, idxmaxAux_val rest r0⟩,
        ?_, ?_⟩
      · intro r hr
        show _ ≤ r.2
        rw [← idxminAux_val]
        rcases List.mem_cons.mp hr with hEq | hr2
        · rw [hEq]
          exact (idxminAux_le rest r0).1
        · exact (idxminAux_le rest r0).2 r hr2
      · intro r hr hval
        show _ ≤ r.1.year
        rw [← idxminAux_val] at hval
        exact idxminAux_first rest r0 hs r hr hval
      · intro r hr
        show r.2 ≤ _
        rw [← idxmaxAux_val]
        rcases List.mem_cons.mp hr with hEq | hr2
        · rw [hEq]
          exact (idxmaxAux_ge rest r0).1
        · exact (idxmaxAux_ge rest r0).2 r hr2
      · intro r hr hval
        show _ ≤ r.1.year
        rw [← idxmaxAux_val] at hval
        exact idxmaxAux_first rest r0 hs r hr hval
  · refine ⟨_, plot_data_stats_cons _ _ (⟨1990, 1, 15⟩, 32)
      [(⟨1995, 1, 15⟩, 32), (⟨2000, 1, 15⟩, 50)] rfl, by decide, by decide⟩

/-- C7 witness: the extreme/earliest-year property instantiated on the
min-tie example slice. -/
theorem c7_witness :
    (∃ stats, plot_data_stats ⟨2000, 1, 15⟩ minTieSlice = .ok stats
      ∧ (∃ r ∈ dropnaVar minTieSlice,
          r.1.year = stats.min_year ∧ r.2 = stats.min)
      ∧ (∀ r ∈ dropnaVar minTieSlice, stats.min ≤ r.2)
      ∧ (∀ r ∈ dropnaVar minTieSlice,
          r.2 = stats.min → stats.min_year ≤ r.1.year)
      ∧ (∃ r ∈ dropnaVar minTieSlice,
          r.1.year = stats.max_year ∧ r.2 = stats.max)
      ∧ (∀ r ∈ dropnaVar minTieSlice, r.2 ≤ stats.max)
      ∧ (∀ r ∈ dropnaVar minTieSlice,
          r.2 = stats.max → stats.max_year ≤ r.1.year))
    ∧ (∃ s2, plot_data_stats ⟨2000, 1, 15⟩ minTieSlice = .ok s2
        ∧ s2.min = 32 ∧ s2.min_year = 1990) :=
  c7_extremes_paired_with_earliest_year ⟨2000, 1, 15⟩ minTieSlice
    (by decide) (by decide)

/-- C8 counterexample: the slice row for year 1930 (reachable, since fetching
starts in 1928) falls into none of the fixed 20-year buckets — `pd.cut` with
right-closed intervals leaves the left edge 1930 out — so not every row of the
slice falls into a bucket. -/
theorem c8_counterexample :
    ¬ ∀ r ∈ assignScore [((⟨1930, 7, 4⟩ : Date), (some 10 : Option ℚ))],
        r.2.2.isSome := by
  decide

/-- C8 amended: the statistics stage tags the slice's rows with year buckets
whose boundaries come from the fixed constant table `range(1930, 2060, 20)`
(fixed-width 20-year bins starting at 1930, not computed from the data); a row
receives the bucket `(a, b]` from that table exactly when its year satisfies
1930 < year ≤ 2050, and a row with year ≤ 1930 or year > 2050 receives the
missing bucket instead of falling into one. -/
theorem c8_fixed_bins_partial_cover (slice : List (Date × Option ℚ))
    (r : Date × Option ℚ × Option (Int × Int)) (hr : r ∈ assignScore slice) :
    (1930 < r.1.year ∧ r.1.year ≤ 2050 →
       ∃ i, r.2.2 = some i ∧ i ∈ scoreBins.zip scoreBins.tail
         ∧ i.1 < r.1.year ∧ r.1.year ≤ i.2)
    ∧ (r.1.year ≤ 1930 ∨ 2050 < r.1.year → r.2.2 = none) := by
  obtain ⟨p, hp, rfl⟩ := List.mem_map.mp hr
  dsimp only
  constructor
  · intro hy
    cases hcb : cutBucket scoreBins p.1.year with
    | none =>
      exfalso
      rcases (cutBucket_none_iff p.1.year).mp hcb with h1 | h1 <;> omega
    | some i =>
      obtain ⟨hm, hlt, hle⟩ := cutBucket_some_mem p.1.year i hcb
      exact ⟨i, rfl, hm, hlt, hle⟩
  · intro hy
    exact (cutBucket_none_iff p.1.year).mpr hy

/-- C8 witness: the bucket rule instantiated on the one-row slice for year
2023, which lands in the (2010, 2030] bucket. -/
theorem c8_witness :
    (1930 < scoredRow.1.year ∧ scoredRow.1.year ≤ 2050 →
       ∃ i, scoredRow.2.2 = some i ∧ i ∈ scoreBins.zip scoreBins.tail
         ∧ i.1 < scoredRow.1.year ∧ scoredRow.1.year ≤ i.2)
    ∧ (scoredRow.1.year ≤ 1930 ∨ 2050 < scoredRow.1.year →
        scoredRow.2.2 = none) :=
  c8_fixed_bins_partial_cover scoredSlice scoredRow (by decide)
